import Mathlib

/-!
Verification of the order-analytics aggregation pipeline of the shopify-app
repository (analytics route, src/unnamed/part_001): the paginated fetch loop
with bounded retry/backoff in the route loader (lines 171-300) and the pure
aggregation function processAnalyticsData (lines 302-418).

Modelling conventions:
* JS numbers holding monetary amounts (parseFloat results) are modelled as
  rationals; integer counters as Nat.
* A JS Map is modelled as an insertion-ordered association list: Map.set
  updates an existing key in place and appends a fresh key at the end, and
  Array.from enumerates entries in insertion order.
* A timestamp is modelled at the resolution the code consumes it: the
  calendar year and month that toLocaleDateString renders.
* Array.prototype.sort (stable since ES2019) with comparator
  (a, b) => b.key - a.key is modelled as a stable insertion sort that keeps
  the earlier-encountered element first on ties.
* The asynchronous fetch loop is modelled as a deterministic state machine
  driven by an oracle giving the outcome of each successive GraphQL request;
  delays and requests are recorded as events.
-/

namespace ShopifyAnalytics

/-! ## Association-list model of a JS Map (insertion ordered) -/

/-- Lookup in an insertion-ordered association list (JS Map.get). -/
def alGet {V : Type} : List (String × V) → String → Option V
  | [], _ => none
  | e :: rest, k => if e.1 = k then some e.2 else alGet rest k

/-- JS Map.set: replace in place when the key exists, append otherwise. -/
def alSet {V : Type} : List (String × V) → String → V → List (String × V)
  | [], k, v => [(k, v)]
  | e :: rest, k, v => if e.1 = k then (k, v) :: rest else e :: alSet rest k v

/-! ## Data model of the GraphQL order nodes consumed by the pipeline -/

/-- Year and month of a processedAt timestamp, as rendered by
new Date(ts).toLocaleDateString('en', \x7byear: 'numeric', month: 'short'\x7d). -/
structure DateYM where
  year : Nat
  month : Nat
deriving DecidableEq

/-- The product object attached to a line item (null when the product record
is absent). Only the title is consumed by the aggregation. -/
structure ProductInfo where
  id : String
  title : String
deriving DecidableEq

/-- One line item node: quantity, optional product, and the variant price
(parseFloat(item.variant.price)). -/
structure LineItemNode where
  title : String
  quantity : Nat
  product : Option ProductInfo
  variantPrice : ℚ
deriving DecidableEq

/-- The shippingAddress object of an order. -/
structure ShippingAddress where
  city : Option String
  province : Option String
  country : Option String
deriving DecidableEq

/-- One order node of the ORDERS_ANALYTICS_QUERY response.  amount is
parseFloat(order.totalPriceSet.shopMoney.amount); customer is the optional
customer id. -/
structure OrderNode where
  id : String
  processedAt : Option DateYM
  amount : ℚ
  displayFulfillmentStatus : String
  displayFinancialStatus : String
  customer : Option String
  lineItems : List LineItemNode
  shippingAddress : Option ShippingAddress
deriving DecidableEq

/-- Short month name used by toLocaleDateString('en', \x7bmonth: 'short'\x7d). -/
def monthShortName : Nat → String
  | 1 => "Jan" | 2 => "Feb" | 3 => "Mar" | 4 => "Apr" | 5 => "May" | 6 => "Jun"
  | 7 => "Jul" | 8 => "Aug" | 9 => "Sep" | 10 => "Oct" | 11 => "Nov" | 12 => "Dec"
  | _ => "Bad"

/-- The month label string computed at part_001 line 328. -/
def monthLabel (d : DateYM) : String :=
  monthShortName d.month ++ " " ++ toString d.year

/-! ## Aggregation state (the five accumulators of processAnalyticsData) -/

/-- Value stored in the monthlyStats map: \x7borders, revenue\x7d. -/
structure MonthAgg where
  orders : Nat
  revenue : ℚ
deriving DecidableEq

/-- Value stored in the productStats map. -/
structure ProdAgg where
  name : String
  quantity : Nat
  revenue : ℚ
  orders : Nat
deriving DecidableEq

/-- Value stored in the locationStats map: \x7borders, revenue\x7d. -/
structure LocAgg where
  orders : Nat
  revenue : ℚ
deriving DecidableEq

/-- The customerSegments record of the output. -/
structure SegmentCounts where
  new : Nat
  returning : Nat
  vip : Nat
deriving DecidableEq

/-- Mutable locals of processAnalyticsData (part_001 lines 303-320). -/
structure AggState where
  monthlyStats : List (String × MonthAgg)
  productStats : List (String × ProdAgg)
  customerOrders : List (String × Nat)
  locationStats : List (String × LocAgg)
  totalRevenue : ℚ
  fulfilledCount : Nat
  paidCount : Nat
deriving DecidableEq

/-- The twelve pre-filled month keys of 2025 (part_001 lines 305-309). -/
def months2025 : List String :=
  ["Jan 2025", "Feb 2025", "Mar 2025", "Apr 2025", "May 2025", "Jun 2025",
   "Jul 2025", "Aug 2025", "Sep 2025", "Oct 2025", "Nov 2025", "Dec 2025"]

/-- Initial aggregation state: monthlyStats zero-filled for all twelve months
of 2025 (lines 310-311), the other maps and counters empty. -/
def initAggState : AggState :=
  { monthlyStats := months2025.map (fun m => (m, { orders := 0, revenue := 0 }))
    productStats := []
    customerOrders := []
    locationStats := []
    totalRevenue := 0
    fulfilledCount := 0
    paidCount := 0 }

/-! ## Stable descending sort (Array.prototype.sort with (a,b) => b.key - a.key) -/

/-- Insert into a list sorted descending by key, placing the new element
before the first element whose key is not larger, so that among equal keys
the element already in the list on the right keeps its later position. -/
def insertDesc {α : Type} (key : α → Nat) (a : α) : List α → List α
  | [] => [a]
  | b :: l => if key b ≤ key a then a :: b :: l else b :: insertDesc key a l

/-- Stable sort, descending by key: elements with equal keys keep their
original relative order (Array.prototype.sort is stable per ES2019). -/
def sortByDesc {α : Type} (key : α → Nat) : List α → List α
  | [] => []
  | a :: l => insertDesc key a (sortByDesc key l)

/-! ## The aggregation pass (processAnalyticsData, part_001 lines 302-418) -/

/-- Product analysis for one line item (lines 350-366): skip when the product
record is absent, otherwise accumulate quantity, quantity * variant price and
the order-touch count into the productStats entry keyed by product title. -/
def processLineItem (s : AggState) (item : LineItemNode) : AggState :=
  match item.product with
  | none => s
  | some product =>
    let key := product.title
    let stats := (alGet s.productStats key).getD
      { name := key, quantity := 0, revenue := 0, orders := 0 }
    let stats : ProdAgg :=
      { name := key
        quantity := stats.quantity + item.quantity
        revenue := stats.revenue + (item.quantity : ℚ) * item.variantPrice
        orders := stats.orders + 1 }
    { s with productStats := alSet s.productStats key stats }

/-- Line 324: totalRevenue += amount. -/
def addRevenue (s : AggState) (o : OrderNode) : AggState :=
  { s with totalRevenue := s.totalRevenue + o.amount }

/-- Lines 326-336: monthly aggregation keyed by the processedAt month label,
skipped when processedAt is absent. -/
def addMonthly (s : AggState) (o : OrderNode) : AggState :=
  match o.processedAt with
  | none => s
  | some d =>
    let month := monthLabel d
    let monthData := (alGet s.monthlyStats month).getD { orders := 0, revenue := 0 }
    let monthData : MonthAgg :=
      { orders := monthData.orders + 1, revenue := monthData.revenue + o.amount }
    { s with monthlyStats := alSet s.monthlyStats month monthData }

/-- Lines 338-340: count orders whose status strings equal the exact
enumerated values FULFILLED and PAID. -/
def addStatusCounts (s : AggState) (o : OrderNode) : AggState :=
  let s := if o.displayFulfillmentStatus = "FULFILLED"
    then { s with fulfilledCount := s.fulfilledCount + 1 } else s
  if o.displayFinancialStatus = "PAID"
    then { s with paidCount := s.paidCount + 1 } else s

/-- Lines 342-347: per-customer order count, skipped when the order has no
customer. -/
def addCustomer (s : AggState) (o : OrderNode) : AggState :=
  match o.customer with
  | none => s
  | some customerId =>
    let orderCount := (alGet s.customerOrders customerId).getD 0
    { s with customerOrders := alSet s.customerOrders customerId (orderCount + 1) }

/-- Lines 349-366: the line-item loop. -/
def addLineItems (s : AggState) (o : OrderNode) : AggState :=
  o.lineItems.foldl processLineItem s

/-- Lines 368-375: location aggregation keyed by shipping city, with the
"Unknown" fallback, skipped when shippingAddress is absent. -/
def addLocation (s : AggState) (o : OrderNode) : AggState :=
  match o.shippingAddress with
  | none => s
  | some addr =>
    let location := addr.city.getD "Unknown"
    let locData := (alGet s.locationStats location).getD { orders := 0, revenue := 0 }
    let locData : LocAgg :=
      { orders := locData.orders + 1, revenue := locData.revenue + o.amount }
    { s with locationStats := alSet s.locationStats location locData }

/-- The body of orders.forEach (lines 322-376), in source order. -/
def processOrder (s : AggState) (o : OrderNode) : AggState :=
  addLocation (addLineItems (addCustomer (addStatusCounts (addMonthly (addRevenue s o) o) o) o) o) o

/-- Lines 379-384: classify each final per-customer order count. -/
def segmentsOf (customerOrders : List (String × Nat)) : SegmentCounts :=
  customerOrders.foldl
    (fun seg kv =>
      if kv.2 = 1 then { seg with new := seg.new + 1 }
      else if 5 ≤ kv.2 then { seg with vip := seg.vip + 1 }
      else { seg with returning := seg.returning + 1 })
    { new := 0, returning := 0, vip := 0 }

/-- The output record of the analytics loader. -/
structure AnalyticsData where
  totalOrders : Nat
  totalRevenue : ℚ
  averageOrderValue : ℚ
  fulfilledOrders : Nat
  paidOrders : Nat
  monthlyData : List (String × MonthAgg)
  productData : List ProdAgg
  customerSegments : SegmentCounts
  locationData : List (String × LocAgg)
deriving DecidableEq

/-- processAnalyticsData (part_001 lines 302-418): single pass over the
fetched orders followed by segment derivation, the two stable descending
top-10 sorts, and the guarded average. -/
def processAnalyticsData (orders : List OrderNode) : AnalyticsData :=
  let s := orders.foldl processOrder initAggState
  { totalOrders := orders.length
    totalRevenue := s.totalRevenue
    averageOrderValue :=
      if 0 < orders.length then s.totalRevenue / (orders.length : ℚ) else 0
    fulfilledOrders := s.fulfilledCount
    paidOrders := s.paidCount
    monthlyData := s.monthlyStats
    productData := (sortByDesc (fun p => p.quantity) (s.productStats.map Prod.snd)).take 10
    customerSegments := segmentsOf s.customerOrders
    locationData := (sortByDesc (fun p => p.2.orders) s.locationStats).take 10 }

/-! ## The paginated fetch loop with retry (loader, part_001 lines 171-300) -/

/-- Substring test at the head of a character list. -/
def leadsWith : List Char → List Char → Bool
  | [], _ => true
  | _ :: _, [] => false
  | c :: cs, d :: ds => c = d && leadsWith cs ds

/-- Substring search over a character list. -/
def hasSubChars (needle : List Char) : List Char → Bool
  | [] => needle.isEmpty
  | c :: cs => leadsWith needle (c :: cs) || hasSubChars needle cs

/-- JS String.prototype.includes. -/
def strIncludes (s pat : String) : Bool :=
  hasSubChars pat.data s.data

/-- The pageInfo object of an orders response. -/
structure PageInfo where
  hasNextPage : Bool
  endCursor : Option String
deriving DecidableEq

/-- Outcome of one admin.graphql request for a page of orders, as the try
block observes it: a parsed response with optional edges and pageInfo, a
response carrying a non-empty errors array (classified by its first
message), a response failing the structure validation of line 217, or a
rejection of the fetch itself (error.message recorded). -/
inductive GraphQLResult where
  | success (edges : Option (List OrderNode)) (pageInfo : Option PageInfo)
  | errors (firstMessage : String)
  | invalidStructure
  | fetchThrow (message : String)
deriving DecidableEq

/-- The errors thrown inside the try block (lines 207-219) or by the fetch
itself. -/
inductive LoaderError where
  | throttled
  | graphqlMsg (msg : String)
  | invalidStructure
  | thrown (msg : String)
deriving DecidableEq

/-- The error.message string each LoaderError carries in the catch handler. -/
def errMessage : LoaderError → String
  | .throttled => "Throttled"
  | .graphqlMsg m => "GraphQL Error: " ++ m
  | .invalidStructure => "Invalid GraphQL response structure"
  | .thrown m => m

/-- Line 237: errorMessage.includes('Throttled') ||
errorMessage.includes('fetch failed'). -/
def messageTransient (e : LoaderError) : Bool :=
  strIncludes (errMessage e) "Throttled" || strIncludes (errMessage e) "fetch failed"

/-- The try block of lines 200-231 up to the successful destructuring: turn
the request outcome into either the (edges, pageInfo) payload or the thrown
LoaderError, following the error checks of lines 207-219 in order. -/
def tryFetch : GraphQLResult → Except LoaderError (Option (List OrderNode) × Option PageInfo)
  | .success edges pageInfo => .ok (edges, pageInfo)
  | .errors msg =>
    if strIncludes msg "Throttled" then .error .throttled
    else .error (.graphqlMsg msg)
  | .invalidStructure => .error .invalidStructure
  | .fetchThrow msg => .error (.thrown msg)

/-- JS x || null on an optional string: the empty string is falsy. -/
def jsOrNull : Option String → Option String
  | none => none
  | some c => if c = "" then none else some c

/-- Observable actions of the fetch loop, in chronological order. -/
inductive FetchEvent where
  | pacingDelay (ms : Nat)
  | request (cursor : Option String)
  | retryWait (ms : Nat)
deriving DecidableEq

/-- The loop locals of the loader (lines 176-181) plus the request counter
feeding the oracle and the recorded events. -/
structure FetchState where
  allOrders : List OrderNode
  hasNextPage : Bool
  cursor : Option String
  pageCount : Nat
  reqIdx : Nat
  events : List FetchEvent
deriving DecidableEq

/-- Initial loop state (lines 176-181). -/
def initFetchState : FetchState :=
  { allOrders := [], hasNextPage := true, cursor := none, pageCount := 0
    reqIdx := 0, events := [] }

/-- The backoff before retry number attempt (attempt = retryCount after the
increment), factored from lines 239 and 244: 4000 * attempt when the message
matches the transient classes, else 3000 * attempt. -/
def retryWaitMs (transient : Bool) (attempt : Nat) : Nat :=
  if transient then 4000 * attempt else 3000 * attempt

/-- Lines 196-198: the unconditional 1.5s pacing delay before every request
except those of the very first page. -/
def pacedState (s : FetchState) : FetchState :=
  if 0 < s.pageCount then { s with events := s.events ++ [.pacingDelay 1500] } else s

/-- Issue one request: record it and advance the oracle index. -/
def requested (s : FetchState) : FetchState :=
  { s with reqIdx := s.reqIdx + 1, events := s.events ++ [.request s.cursor] }

/-- Lines 222-229: the successful-page state update: append the edges
(defaulting to empty), read hasNextPage and endCursor with the JS
||-defaults, and advance pageCount. -/
def pageSuccess (s : FetchState) (edges : Option (List OrderNode))
    (pageInfo : Option PageInfo) : FetchState :=
  { s with
    allOrders := s.allOrders ++ edges.getD []
    hasNextPage := (pageInfo.map PageInfo.hasNextPage).getD false
    cursor := jsOrNull (pageInfo.bind PageInfo.endCursor)
    pageCount := s.pageCount + 1 }

/-- Record the backoff wait of one retry. -/
def waited (s : FetchState) (ms : Nat) : FetchState :=
  { s with events := s.events ++ [.retryWait ms] }

/-- The inner retry loop (lines 188-253) for one page.  An oracle maps the
running request index to the outcome of that admin.graphql call.  The fuel
argument counts the remaining admissible attempts: the loop runs while
!success && retryCount <= maxRetries (maxRetries = 3), and each iteration
either succeeds, increments retryCount, or breaks, so fuel = 4 - retryCount
makes the fuel guard coincide with the loop condition.  Returns the updated
state and the success flag. -/
def pageLoop (oracle : Nat → GraphQLResult) : Nat → Nat → FetchState → FetchState × Bool
  | 0, _, s => (s, false)
  | fuel + 1, retryCount, s =>
    let s1 := requested (pacedState s)
    match tryFetch (oracle (pacedState s).reqIdx) with
    | .ok (edges, pageInfo) => (pageSuccess s1 edges pageInfo, true)
    | .error e =>
      if messageTransient e && retryCount < 3 then
        pageLoop oracle fuel (retryCount + 1) (waited s1 (4000 * (retryCount + 1)))
      else if retryCount < 3 then
        pageLoop oracle fuel (retryCount + 1) (waited s1 (3000 * (retryCount + 1)))
      else (s1, false)

/-- The outer pagination loop (lines 183-259): while hasNextPage && pageCount
< MAX_PAGES, run the retry loop for one page; on failure break with whatever
was accumulated (the catch handler breaks, it never rethrows).  Each
successful page increments pageCount, so fuel = MAX_PAGES - pageCount keeps
the fuel guard from firing before the pageCount < 20 condition does. -/
def fetchLoop (oracle : Nat → GraphQLResult) : Nat → FetchState → FetchState
  | 0, s => s
  | fuel + 1, s =>
    if s.hasNextPage && s.pageCount < 20 then
      match pageLoop oracle 4 0 s with
      | (s', true) => fetchLoop oracle fuel s'
      | (s', false) => s'
    else s

/-- The whole order-fetch stage of the loader. -/
def fetchOrders (oracle : Nat → GraphQLResult) : FetchState :=
  fetchLoop oracle 20 initFetchState

/-- Line 292: the analytics summary the loader builds from whatever orders
the fetch stage accumulated.  The products and locations requests that sit
between the loop and this call (lines 267-289) do not feed the summary. -/
def loaderAnalytics (oracle : Nat → GraphQLResult) : AnalyticsData :=
  processAnalyticsData (fetchOrders oracle).allOrders

/-- Number of admin.graphql order requests recorded. -/
def countRequests (evs : List FetchEvent) : Nat :=
  evs.countP (fun e => match e with | .request _ => true | _ => false)

/-- The retry backoff waits recorded, in order. -/
def retryWaits (evs : List FetchEvent) : List Nat :=
  evs.filterMap (fun e => match e with | .retryWait ms => some ms | _ => none)

/-! ## Association-list lemmas -/

lemma alGet_alSet_self {V : Type} (m : List (String × V)) (k : String) (v : V) :
    alGet (alSet m k v) k = some v := by
  induction m with
  | nil => simp [alSet, alGet]
  | cons e rest ih =>
    by_cases h : e.1 = k
    · simp [alSet, alGet, h]
    · simp [alSet, alGet, h, ih]

lemma alGet_alSet_ne {V : Type} (m : List (String × V)) (k k' : String) (v : V)
    (h : k' ≠ k) : alGet (alSet m k v) k' = alGet m k' := by
  induction m with
  | nil => simp [alSet, alGet, Ne.symm h]
  | cons e rest ih =>
    by_cases he : e.1 = k
    · simp [alSet, alGet, he, Ne.symm h, ih]
    · simp [alSet, alGet, he, ih]

lemma alSet_keys {V : Type} (m : List (String × V)) (k : String) (v : V) :
    (alSet m k v).map Prod.fst =
      if k ∈ m.map Prod.fst then m.map Prod.fst else m.map Prod.fst ++ [k] := by
  induction m with
  | nil => simp [alSet]
  | cons e rest ih =>
    by_cases he : e.1 = k
    · simp [alSet, he]
    · by_cases hm : k ∈ rest.map Prod.fst <;>
        simp [alSet, he, ih, hm, Ne.symm he]

lemma mem_keys_iff_isSome {V : Type} (m : List (String × V)) (k : String) :
    k ∈ m.map Prod.fst ↔ (alGet m k).isSome := by
  induction m with
  | nil => simp [alGet]
  | cons e rest ih =>
    by_cases he : e.1 = k
    · simp [alGet, he]
    · simp [alGet, he, ih, Ne.symm he]

lemma alGet_eq_none_of_not_mem {V : Type} (m : List (String × V)) (k : String)
    (h : k ∉ m.map Prod.fst) : alGet m k = none := by
  have := (mem_keys_iff_isSome m k).not.mp h
  cases hg : alGet m k
  · rfl
  · exact absurd (by simp [hg]) this

lemma alSet_of_not_mem {V : Type} (m : List (String × V)) (k : String) (v : V)
    (h : k ∉ m.map Prod.fst) : alSet m k v = m ++ [(k, v)] := by
  induction m with
  | nil => simp [alSet]
  | cons e rest ih =>
    simp only [List.map_cons, List.mem_cons] at h
    push_neg at h
    simp [alSet, Ne.symm h.1, ih h.2]

lemma alSet_keys_nodup {V : Type} (m : List (String × V)) (k : String) (v : V)
    (h : (m.map Prod.fst).Nodup) : ((alSet m k v).map Prod.fst).Nodup := by
  rw [alSet_keys]
  by_cases hm : k ∈ m.map Prod.fst
  · simpa [hm] using h
  · simp only [hm, if_false]
    rw [List.nodup_append]
    exact ⟨h, List.nodup_singleton k, by
      intro a ha hb
      simp only [List.mem_singleton] at hb
      exact hm (hb ▸ ha)⟩

lemma alGet_of_mem_nodup {V : Type} (m : List (String × V)) (k : String) (v : V)
    (hnd : (m.map Prod.fst).Nodup) (hmem : (k, v) ∈ m) : alGet m k = some v := by
  induction m with
  | nil => cases hmem
  | cons e rest ih =>
    rcases List.mem_cons.mp hmem with he | hrest
    · simp [alGet, ← he]
    · have hk : k ∈ rest.map Prod.fst :=
        List.mem_map.mpr ⟨(k, v), hrest, rfl⟩
      have hne : e.1 ≠ k := by
        intro hek
        exact (List.nodup_cons.mp (by simpa using hnd)).1 (hek ▸ hk)
      simpa [alGet, hne] using ih (List.nodup_cons.mp (by simpa using hnd)).2 hrest

lemma alGet_const_map {V : Type} (l : List String) (c : V) (k : String) :
    alGet (l.map (fun m => (m, c))) k = if k ∈ l then some c else none := by
  induction l with
  | nil => simp [alGet]
  | cons a l ih =>
    by_cases h : a = k
    · simp [alGet, h]
    · simp [alGet, h, ih, Ne.symm h]

/-! ## Counting characterisations of the aggregation -/

/-- Sum of the parsed monetary totals of a list of orders. -/
def sumAmounts (l : List OrderNode) : ℚ := (l.map OrderNode.amount).sum

/-- Whether an order lands in the monthly bucket labelled m. -/
def inMonth (m : String) (o : OrderNode) : Bool :=
  o.processedAt.map monthLabel == some m

/-- How many orders of the list belong to the customer with the given id. -/
def customerCount (l : List OrderNode) (cid : String) : Nat :=
  l.countP (fun o => o.customer == some cid)

/-! ## Field projections of the per-order steps -/

@[simp] lemma processLineItem_monthlyStats (s : AggState) (item : LineItemNode) :
    (processLineItem s item).monthlyStats = s.monthlyStats := by
  cases h : item.product <;> simp [processLineItem, h]

@[simp] lemma processLineItem_customerOrders (s : AggState) (item : LineItemNode) :
    (processLineItem s item).customerOrders = s.customerOrders := by
  cases h : item.product <;> simp [processLineItem, h]

@[simp] lemma processLineItem_locationStats (s : AggState) (item : LineItemNode) :
    (processLineItem s item).locationStats = s.locationStats := by
  cases h : item.product <;> simp [processLineItem, h]

@[simp] lemma processLineItem_totalRevenue (s : AggState) (item : LineItemNode) :
    (processLineItem s item).totalRevenue = s.totalRevenue := by
  cases h : item.product <;> simp [processLineItem, h]

@[simp] lemma processLineItem_fulfilledCount (s : AggState) (item : LineItemNode) :
    (processLineItem s item).fulfilledCount = s.fulfilledCount := by
  cases h : item.product <;> simp [processLineItem, h]

@[simp] lemma processLineItem_paidCount (s : AggState) (item : LineItemNode) :
    (processLineItem s item).paidCount = s.paidCount := by
  cases h : item.product <;> simp [processLineItem, h]

@[simp] lemma addLineItems_monthlyStats (s : AggState) (o : OrderNode) :
    (addLineItems s o).monthlyStats = s.monthlyStats := by
  unfold addLineItems
  generalize o.lineItems = items
  induction items generalizing s with
  | nil => rfl
  | cons it l ih => rw [List.foldl_cons, ih, processLineItem_monthlyStats]

@[simp] lemma addLineItems_customerOrders (s : AggState) (o : OrderNode) :
    (addLineItems s o).customerOrders = s.customerOrders := by
  unfold addLineItems
  generalize o.lineItems = items
  induction items generalizing s with
  | nil => rfl
  | cons it l ih => rw [List.foldl_cons, ih, processLineItem_customerOrders]

@[simp] lemma addLineItems_locationStats (s : AggState) (o : OrderNode) :
    (addLineItems s o).locationStats = s.locationStats := by
  unfold addLineItems
  generalize o.lineItems = items
  induction items generalizing s with
  | nil => rfl
  | cons it l ih => rw [List.foldl_cons, ih, processLineItem_locationStats]

@[simp] lemma addLineItems_totalRevenue (s : AggState) (o : OrderNode) :
    (addLineItems s o).totalRevenue = s.totalRevenue := by
  unfold addLineItems
  generalize o.lineItems = items
  induction items generalizing s with
  | nil => rfl
  | cons it l ih => rw [List.foldl_cons, ih, processLineItem_totalRevenue]

@[simp] lemma addLineItems_fulfilledCount (s : AggState) (o : OrderNode) :
    (addLineItems s o).fulfilledCount = s.fulfilledCount := by
  unfold addLineItems
  generalize o.lineItems = items
  induction items generalizing s with
  | nil => rfl
  | cons it l ih => rw [List.foldl_cons, ih, processLineItem_fulfilledCount]

@[simp] lemma addLineItems_paidCount (s : AggState) (o : OrderNode) :
    (addLineItems s o).paidCount = s.paidCount := by
  unfold addLineItems
  generalize o.lineItems = items
  induction items generalizing s with
  | nil => rfl
  | cons it l ih => rw [List.foldl_cons, ih, processLineItem_paidCount]

@[simp] lemma addRevenue_totalRevenue (s : AggState) (o : OrderNode) :
    (addRevenue s o).totalRevenue = s.totalRevenue + o.amount := rfl

@[simp] lemma addRevenue_monthlyStats (s : AggState) (o : OrderNode) :
    (addRevenue s o).monthlyStats = s.monthlyStats := rfl

@[simp] lemma addRevenue_productStats (s : AggState) (o : OrderNode) :
    (addRevenue s o).productStats = s.productStats := rfl

@[simp] lemma addRevenue_customerOrders (s : AggState) (o : OrderNode) :
    (addRevenue s o).customerOrders = s.customerOrders := rfl

@[simp] lemma addRevenue_locationStats (s : AggState) (o : OrderNode) :
    (addRevenue s o).locationStats = s.locationStats := rfl

@[simp] lemma addRevenue_fulfilledCount (s : AggState) (o : OrderNode) :
    (addRevenue s o).fulfilledCount = s.fulfilledCount := rfl

@[simp] lemma addRevenue_paidCount (s : AggState) (o : OrderNode) :
    (addRevenue s o).paidCount = s.paidCount := rfl

lemma addMonthly_monthlyStats (s : AggState) (o : OrderNode) :
    (addMonthly s o).monthlyStats =
      match o.processedAt with
      | none => s.monthlyStats
      | some d =>
        alSet s.monthlyStats (monthLabel d)
          ⟨((alGet s.monthlyStats (monthLabel d)).getD ⟨0, 0⟩).orders + 1,
           ((alGet s.monthlyStats (monthLabel d)).getD ⟨0, 0⟩).revenue + o.amount⟩ := by
  cases h : o.processedAt <;> simp [addMonthly, h]

@[simp] lemma addMonthly_totalRevenue (s : AggState) (o : OrderNode) :
    (addMonthly s o).totalRevenue = s.totalRevenue := by
  cases h : o.processedAt <;> simp [addMonthly, h]

@[simp] lemma addMonthly_productStats (s : AggState) (o : OrderNode) :
    (addMonthly s o).productStats = s.productStats := by
  cases h : o.processedAt <;> simp [addMonthly, h]

@[simp] lemma addMonthly_customerOrders (s : AggState) (o : OrderNode) :
    (addMonthly s o).customerOrders = s.customerOrders := by
  cases h : o.processedAt <;> simp [addMonthly, h]

@[simp] lemma addMonthly_locationStats (s : AggState) (o : OrderNode) :
    (addMonthly s o).locationStats = s.locationStats := by
  cases h : o.processedAt <;> simp [addMonthly, h]

@[simp] lemma addMonthly_fulfilledCount (s : AggState) (o : OrderNode) :
    (addMonthly s o).fulfilledCount = s.fulfilledCount := by
  cases h : o.processedAt <;> simp [addMonthly, h]

@[simp] lemma addMonthly_paidCount (s : AggState) (o : OrderNode) :
    (addMonthly s o).paidCount = s.paidCount := by
  cases h : o.processedAt <;> simp [addMonthly, h]

@[simp] lemma addStatusCounts_monthlyStats (s : AggState) (o : OrderNode) :
    (addStatusCounts s o).monthlyStats = s.monthlyStats := by
  simp only [addStatusCounts]
  split_ifs <;> rfl

@[simp] lemma addStatusCounts_productStats (s : AggState) (o : OrderNode) :
    (addStatusCounts s o).productStats = s.productStats := by
  simp only [addStatusCounts]
  split_ifs <;> rfl

@[simp] lemma addStatusCounts_customerOrders (s : AggState) (o : OrderNode) :
    (addStatusCounts s o).customerOrders = s.customerOrders := by
  simp only [addStatusCounts]
  split_ifs <;> rfl

@[simp] lemma addStatusCounts_locationStats (s : AggState) (o : OrderNode) :
    (addStatusCounts s o).locationStats = s.locationStats := by
  simp only [addStatusCounts]
  split_ifs <;> rfl

@[simp] lemma addStatusCounts_totalRevenue (s : AggState) (o : OrderNode) :
    (addStatusCounts s o).totalRevenue = s.totalRevenue := by
  simp only [addStatusCounts]
  split_ifs <;> rfl

lemma addStatusCounts_fulfilledCount (s : AggState) (o : OrderNode) :
    (addStatusCounts s o).fulfilledCount =
      s.fulfilledCount + (if o.displayFulfillmentStatus = "FULFILLED" then 1 else 0) := by
  simp only [addStatusCounts]
  split_ifs <;> simp

lemma addStatusCounts_paidCount (s : AggState) (o : OrderNode) :
    (addStatusCounts s o).paidCount =
      s.paidCount + (if o.displayFinancialStatus = "PAID" then 1 else 0) := by
  simp only [addStatusCounts]
  split_ifs <;> simp

lemma addCustomer_customerOrders (s : AggState) (o : OrderNode) :
    (addCustomer s o).customerOrders =
      match o.customer with
      | none => s.customerOrders
      | some cid => alSet s.customerOrders cid ((alGet s.customerOrders cid).getD 0 + 1) := by
  cases h : o.customer <;> simp [addCustomer, h]

@[simp] lemma addCustomer_monthlyStats (s : AggState) (o : OrderNode) :
    (addCustomer s o).monthlyStats = s.monthlyStats := by
  cases h : o.customer <;> simp [addCustomer, h]

@[simp] lemma addCustomer_productStats (s : AggState) (o : OrderNode) :
    (addCustomer s o).productStats = s.productStats := by
  cases h : o.customer <;> simp [addCustomer, h]

@[simp] lemma addCustomer_locationStats (s : AggState) (o : OrderNode) :
    (addCustomer s o).locationStats = s.locationStats := by
  cases h : o.customer <;> simp [addCustomer, h]

@[simp] lemma addCustomer_totalRevenue (s : AggState) (o : OrderNode) :
    (addCustomer s o).totalRevenue = s.totalRevenue := by
  cases h : o.customer <;> simp [addCustomer, h]

@[simp] lemma addCustomer_fulfilledCount (s : AggState) (o : OrderNode) :
    (addCustomer s o).fulfilledCount = s.fulfilledCount := by
  cases h : o.customer <;> simp [addCustomer, h]

@[simp] lemma addCustomer_paidCount (s : AggState) (o : OrderNode) :
    (addCustomer s o).paidCount = s.paidCount := by
  cases h : o.customer <;> simp [addCustomer, h]

@[simp] lemma addLocation_monthlyStats (s : AggState) (o : OrderNode) :
    (addLocation s o).monthlyStats = s.monthlyStats := by
  cases h : o.shippingAddress <;> simp [addLocation, h]

@[simp] lemma addLocation_productStats (s : AggState) (o : OrderNode) :
    (addLocation s o).productStats = s.productStats := by
  cases h : o.shippingAddress <;> simp [addLocation, h]

@[simp] lemma addLocation_customerOrders (s : AggState) (o : OrderNode) :
    (addLocation s o).customerOrders = s.customerOrders := by
  cases h : o.shippingAddress <;> simp [addLocation, h]

@[simp] lemma addLocation_totalRevenue (s : AggState) (o : OrderNode) :
    (addLocation s o).totalRevenue = s.totalRevenue := by
  cases h : o.shippingAddress <;> simp [addLocation, h]

@[simp] lemma addLocation_fulfilledCount (s : AggState) (o : OrderNode) :
    (addLocation s o).fulfilledCount = s.fulfilledCount := by
  cases h : o.shippingAddress <;> simp [addLocation, h]

@[simp] lemma addLocation_paidCount (s : AggState) (o : OrderNode) :
    (addLocation s o).paidCount = s.paidCount := by
  cases h : o.shippingAddress <;> simp [addLocation, h]

/-! ## Field projections of processOrder -/

lemma processOrder_totalRevenue (s : AggState) (o : OrderNode) :
    (processOrder s o).totalRevenue = s.totalRevenue + o.amount := by
  simp [processOrder]

lemma processOrder_fulfilledCount (s : AggState) (o : OrderNode) :
    (processOrder s o).fulfilledCount =
      s.fulfilledCount + (if o.displayFulfillmentStatus = "FULFILLED" then 1 else 0) := by
  simp [processOrder, addStatusCounts_fulfilledCount]

lemma processOrder_paidCount (s : AggState) (o : OrderNode) :
    (processOrder s o).paidCount =
      s.paidCount + (if o.displayFinancialStatus = "PAID" then 1 else 0) := by
  simp [processOrder, addStatusCounts_paidCount]

lemma processOrder_monthlyStats (s : AggState) (o : OrderNode) :
    (processOrder s o).monthlyStats = (addMonthly s o).monthlyStats := by
  simp [processOrder, addMonthly_monthlyStats]

lemma processOrder_customerOrders (s : AggState) (o : OrderNode) :
    (processOrder s o).customerOrders = (addCustomer s o).customerOrders := by
  simp [processOrder, addCustomer_customerOrders]

/-! ## Characterisations of the single pass as counts and sums -/

lemma foldl_totalRevenue (l : List OrderNode) (s : AggState) :
    (l.foldl processOrder s).totalRevenue = s.totalRevenue + sumAmounts l := by
  induction l generalizing s with
  | nil => simp [sumAmounts]
  | cons o l ih =>
    rw [List.foldl_cons, ih, processOrder_totalRevenue]
    simp [sumAmounts, add_assoc]

lemma foldl_fulfilledCount (l : List OrderNode) (s : AggState) :
    (l.foldl processOrder s).fulfilledCount =
      s.fulfilledCount + l.countP (fun o => o.displayFulfillmentStatus == "FULFILLED") := by
  induction l generalizing s with
  | nil => simp
  | cons o l ih =>
    rw [List.foldl_cons, ih, processOrder_fulfilledCount, List.countP_cons]
    by_cases h : o.displayFulfillmentStatus = "FULFILLED" <;> (simp [h]; try omega)

lemma foldl_paidCount (l : List OrderNode) (s : AggState) :
    (l.foldl processOrder s).paidCount =
      s.paidCount + l.countP (fun o => o.displayFinancialStatus == "PAID") := by
  induction l generalizing s with
  | nil => simp
  | cons o l ih =>
    rw [List.foldl_cons, ih, processOrder_paidCount, List.countP_cons]
    by_cases h : o.displayFinancialStatus = "PAID" <;> (simp [h]; try omega)

lemma alGet_processOrder_monthly (s : AggState) (o : OrderNode) (m : String) :
    alGet (processOrder s o).monthlyStats m =
      if inMonth m o then
        some ⟨((alGet s.monthlyStats m).getD ⟨0, 0⟩).orders + 1,
              ((alGet s.monthlyStats m).getD ⟨0, 0⟩).revenue + o.amount⟩
      else alGet s.monthlyStats m := by
  rw [processOrder_monthlyStats, addMonthly_monthlyStats]
  cases hp : o.processedAt with
  | none => simp [inMonth, hp]
  | some d =>
    by_cases hm : monthLabel d = m
    · subst hm
      simp [inMonth, hp, alGet_alSet_self]
    · simp [inMonth, hp, hm, alGet_alSet_ne _ _ _ _ (Ne.symm hm)]

lemma foldl_monthly_lookup (l : List OrderNode) (s : AggState) (m : String) :
    alGet ((l.foldl processOrder s).monthlyStats) m =
      match alGet s.monthlyStats m with
      | some a => some ⟨a.orders + l.countP (inMonth m),
                        a.revenue + sumAmounts (l.filter (inMonth m))⟩
      | none =>
        if l.countP (inMonth m) = 0 then none
        else some ⟨l.countP (inMonth m), sumAmounts (l.filter (inMonth m))⟩ := by
  induction l generalizing s with
  | nil =>
    cases hg : alGet s.monthlyStats m <;> simp [hg, sumAmounts]
  | cons o l ih =>
    rw [List.foldl_cons, ih, alGet_processOrder_monthly]
    by_cases ho : inMonth m o
    · cases hg : alGet s.monthlyStats m with
      | some a =>
        simp only [ho, if_true, hg, Option.getD_some, List.countP_cons, List.filter_cons,
          sumAmounts, List.map_cons, List.sum_cons, Option.some.injEq, MonthAgg.mk.injEq]
        exact ⟨by omega, by ring⟩
      | none =>
        simp only [ho, if_true, hg, Option.getD_none, List.countP_cons, List.filter_cons,
          sumAmounts]
        have hne : ¬ (l.countP (inMonth m) + 1 = 0) := by omega
        simp [hne, ho, Option.some.injEq, MonthAgg.mk.injEq]
        omega
    · simp only [ho, if_false, List.countP_cons, List.filter_cons]
      simp [ho]

lemma alGet_processOrder_customer (s : AggState) (o : OrderNode) (cid : String) :
    alGet (processOrder s o).customerOrders cid =
      if o.customer == some cid then
        some ((alGet s.customerOrders cid).getD 0 + 1)
      else alGet s.customerOrders cid := by
  rw [processOrder_customerOrders, addCustomer_customerOrders]
  cases hc : o.customer with
  | none => simp
  | some c =>
    by_cases hcc : c = cid
    · subst hcc
      simp [alGet_alSet_self]
    · simp [hcc, alGet_alSet_ne _ _ _ _ (Ne.symm hcc)]

lemma foldl_customer_lookup (l : List OrderNode) (s : AggState) (cid : String) :
    alGet ((l.foldl processOrder s).customerOrders) cid =
      match alGet s.customerOrders cid with
      | some n => some (n + customerCount l cid)
      | none =>
        if customerCount l cid = 0 then none else some (customerCount l cid) := by
  induction l generalizing s with
  | nil => cases hg : alGet s.customerOrders cid <;> simp [hg, customerCount]
  | cons o l ih =>
    rw [List.foldl_cons, ih, alGet_processOrder_customer]
    by_cases ho : o.customer == some cid
    · cases hg : alGet s.customerOrders cid with
      | some n =>
        simp only [ho, if_true, hg, Option.getD_some, customerCount, List.countP_cons]
        simp [ho]
        omega
      | none =>
        simp only [ho, if_true, hg, Option.getD_none, customerCount, List.countP_cons]
        have : ¬ (l.countP (fun o => o.customer == some cid) + 1 = 0) := by omega
        simp [this, ho]
        omega
    · simp only [ho, if_false, customerCount, List.countP_cons]
      simp [ho]

lemma foldl_customer_keys_nodup (l : List OrderNode) (s : AggState)
    (h : (s.customerOrders.map Prod.fst).Nodup) :
    (((l.foldl processOrder s).customerOrders).map Prod.fst).Nodup := by
  induction l generalizing s with
  | nil => exact h
  | cons o l ih =>
    refine ih _ ?_
    rw [processOrder_customerOrders, addCustomer_customerOrders]
    cases hc : o.customer
    · exact h
    · exact alSet_keys_nodup _ _ _ h

lemma foldl_monthly_keys (l : List OrderNode) (s : AggState)
    (h : ∃ ex, s.monthlyStats.map Prod.fst = months2025 ++ ex) :
    ∃ ex, ((l.foldl processOrder s).monthlyStats).map Prod.fst = months2025 ++ ex := by
  induction l generalizing s with
  | nil => exact h
  | cons o l ih =>
    refine ih _ ?_
    obtain ⟨ex, hex⟩ := h
    rw [processOrder_monthlyStats, addMonthly_monthlyStats]
    cases hp : o.processedAt with
    | none => exact ⟨ex, hex⟩
    | some d =>
      rw [alSet_keys]
      split
      · exact ⟨ex, hex⟩
      · exact ⟨ex ++ [monthLabel d], by rw [hex, List.append_assoc]⟩

/-! ## Segment classification lemmas -/

lemma segmentsOf_aux (co : List (String × Nat)) (acc : SegmentCounts) :
    co.foldl (fun seg kv =>
        if kv.2 = 1 then { seg with new := seg.new + 1 }
        else if 5 ≤ kv.2 then { seg with vip := seg.vip + 1 }
        else { seg with returning := seg.returning + 1 }) acc =
      ⟨acc.new + co.countP (fun kv => kv.2 == 1),
       acc.returning + co.countP (fun kv => decide (kv.2 ≠ 1 ∧ kv.2 < 5)),
       acc.vip + co.countP (fun kv => decide (5 ≤ kv.2))⟩ := by
  induction co generalizing acc with
  | nil => simp
  | cons kv co ih =>
    rw [List.foldl_cons]
    by_cases h1 : kv.2 = 1
    · rw [if_pos h1, ih]
      simp [List.countP_cons, h1, SegmentCounts.mk.injEq]
      omega
    · by_cases h5 : 5 ≤ kv.2
      · rw [if_neg h1, if_pos h5, ih]
        simp [List.countP_cons, h1, h5, Nat.not_lt.mpr h5, SegmentCounts.mk.injEq]
        omega
      · rw [if_neg h1, if_neg h5, ih]
        simp [List.countP_cons, h1, h5, Nat.lt_of_not_le h5, SegmentCounts.mk.injEq]
        omega

lemma segmentsOf_eq (co : List (String × Nat)) :
    segmentsOf co =
      ⟨co.countP (fun kv => kv.2 == 1),
       co.countP (fun kv => decide (kv.2 ≠ 1 ∧ kv.2 < 5)),
       co.countP (fun kv => decide (5 ≤ kv.2))⟩ := by
  rw [segmentsOf, segmentsOf_aux]
  simp

lemma countP_segments_len (co : List (String × Nat)) :
    co.countP (fun kv => kv.2 == 1) +
      co.countP (fun kv => decide (kv.2 ≠ 1 ∧ kv.2 < 5)) +
      co.countP (fun kv => decide (5 ≤ kv.2)) = co.length := by
  induction co with
  | nil => simp
  | cons kv co ih =>
    rw [List.countP_cons, List.countP_cons, List.countP_cons, List.length_cons]
    by_cases h1 : kv.2 = 1
    · rw [if_pos (by simp [h1]), if_neg (by simp [h1]), if_neg (by simp [h1])]
      omega
    · by_cases h5 : 5 ≤ kv.2
      · rw [if_neg (by simp [h1]), if_neg (by simp [Nat.not_lt.mpr h5]), if_pos (by simp [h5])]
        omega
      · rw [if_neg (by simp [h1]), if_pos (by simp [h1, Nat.lt_of_not_le h5]),
          if_neg (by simp [h5])]
        omega

/-! ## Stable-sort lemmas -/

lemma insertDesc_perm {α : Type} (key : α → Nat) (a : α) (l : List α) :
    (insertDesc key a l).Perm (a :: l) := by
  induction l with
  | nil => simp [insertDesc]
  | cons b l ih =>
    by_cases h : key b ≤ key a
    · simp [insertDesc, h]
    · simp only [insertDesc, h, if_false]
      exact (ih.cons b).trans (List.Perm.swap a b l)

lemma insertDesc_pairwise {α : Type} (key : α → Nat) (a : α) (l : List α)
    (h : l.Pairwise (fun x y => key y ≤ key x)) :
    (insertDesc key a l).Pairwise (fun x y => key y ≤ key x) := by
  induction l with
  | nil => simp [insertDesc]
  | cons b l ih =>
    rcases List.pairwise_cons.mp h with ⟨hb, hl⟩
    by_cases hle : key b ≤ key a
    · simp only [insertDesc, hle, if_true]
      refine List.pairwise_cons.mpr ⟨?_, h⟩
      intro y hy
      rcases List.mem_cons.mp hy with rfl | hy
      · exact hle
      · exact le_trans (hb y hy) hle
    · simp only [insertDesc, hle, if_false]
      refine List.pairwise_cons.mpr ⟨?_, ih hl⟩
      intro y hy
      have hy2 := (insertDesc_perm key a l).mem_iff.mp hy
      rcases List.mem_cons.mp hy2 with rfl | hy2
      · exact le_of_lt (Nat.lt_of_not_le hle)
      · exact hb y hy2

lemma sortByDesc_pairwise {α : Type} (key : α → Nat) (l : List α) :
    (sortByDesc key l).Pairwise (fun x y => key y ≤ key x) := by
  induction l with
  | nil => simp [sortByDesc]
  | cons a l ih => exact insertDesc_pairwise key a _ ih

lemma insertDesc_filter {α : Type} (key : α → Nat) (a : α) (l : List α) (q : Nat) :
    (insertDesc key a l).filter (fun x => key x == q) =
      if key a = q then a :: l.filter (fun x => key x == q)
      else l.filter (fun x => key x == q) := by
  induction l with
  | nil => by_cases h : key a = q <;> simp [insertDesc, h]
  | cons b l ih =>
    by_cases hle : key b ≤ key a
    · simp only [insertDesc, hle, if_true, List.filter_cons]
      by_cases ha : key a = q <;> by_cases hb : key b = q <;> simp [ha, hb]
    · simp only [insertDesc, hle, if_false, List.filter_cons]
      by_cases ha : key a = q
      · have hbq : ¬ (key b = q) := by
          intro hb
          exact hle (le_of_eq (hb.trans ha.symm))
        simp [ha, hbq, ih]
      · by_cases hb : key b = q <;> simp [ha, hb, ih]

lemma sortByDesc_filter {α : Type} (key : α → Nat) (l : List α) (q : Nat) :
    (sortByDesc key l).filter (fun x => key x == q) = l.filter (fun x => key x == q) := by
  induction l with
  | nil => rfl
  | cons a l ih =>
    show (insertDesc key a (sortByDesc key l)).filter _ = _
    rw [insertDesc_filter, List.filter_cons]
    by_cases h : key a = q <;> simp [h, ih]

lemma filter_take_exists {α : Type} (p : α → Bool) (l : List α) (n : Nat) :
    ∃ rest, l.filter p = (l.take n).filter p ++ rest :=
  ⟨(l.drop n).filter p, by rw [← List.filter_append, List.take_append_drop]⟩

/-! ## Output projections of processAnalyticsData -/

lemma pad_totalOrders (orders : List OrderNode) :
    (processAnalyticsData orders).totalOrders = orders.length := rfl

lemma pad_totalRevenue (orders : List OrderNode) :
    (processAnalyticsData orders).totalRevenue =
      (orders.foldl processOrder initAggState).totalRevenue := rfl

lemma pad_averageOrderValue (orders : List OrderNode) :
    (processAnalyticsData orders).averageOrderValue =
      if 0 < orders.length
      then (orders.foldl processOrder initAggState).totalRevenue / (orders.length : ℚ)
      else 0 := rfl

lemma pad_fulfilledOrders (orders : List OrderNode) :
    (processAnalyticsData orders).fulfilledOrders =
      (orders.foldl processOrder initAggState).fulfilledCount := rfl

lemma pad_paidOrders (orders : List OrderNode) :
    (processAnalyticsData orders).paidOrders =
      (orders.foldl processOrder initAggState).paidCount := rfl

lemma pad_monthlyData (orders : List OrderNode) :
    (processAnalyticsData orders).monthlyData =
      (orders.foldl processOrder initAggState).monthlyStats := rfl

lemma pad_productData (orders : List OrderNode) :
    (processAnalyticsData orders).productData =
      (sortByDesc (fun p => p.quantity)
        ((orders.foldl processOrder initAggState).productStats.map Prod.snd)).take 10 := rfl

lemma pad_customerSegments (orders : List OrderNode) :
    (processAnalyticsData orders).customerSegments =
      segmentsOf (orders.foldl processOrder initAggState).customerOrders := rfl

lemma pad_locationData (orders : List OrderNode) :
    (processAnalyticsData orders).locationData =
      (sortByDesc (fun p => p.2.orders)
        ((orders.foldl processOrder initAggState).locationStats)).take 10 := rfl

/-! ## Customer map facts at the initial state -/

lemma customer_entry_value (orders : List OrderNode) (cid : String) (v : Nat)
    (hmem : (cid, v) ∈ (orders.foldl processOrder initAggState).customerOrders) :
    v = customerCount orders cid ∧ 1 ≤ v := by
  have hnd := foldl_customer_keys_nodup orders initAggState (by simp [initAggState])
  have hget := alGet_of_mem_nodup _ _ _ hnd hmem
  rw [foldl_customer_lookup] at hget
  simp only [initAggState, alGet] at hget
  by_cases h0 : customerCount orders cid = 0
  · simp [h0] at hget
  · simp [h0] at hget
    exact ⟨hget.symm, by omega⟩

lemma customer_key_iff (orders : List OrderNode) (cid : String) :
    cid ∈ ((orders.foldl processOrder initAggState).customerOrders).map Prod.fst ↔
      customerCount orders cid ≠ 0 := by
  rw [mem_keys_iff_isSome, foldl_customer_lookup]
  simp only [initAggState, alGet]
  by_cases h0 : customerCount orders cid = 0 <;> simp [h0]

/-! ## Fetch-loop lemmas -/

@[simp] lemma pacedState_allOrders (s : FetchState) :
    (pacedState s).allOrders = s.allOrders := by
  unfold pacedState
  split <;> rfl

@[simp] lemma pacedState_reqIdx (s : FetchState) : (pacedState s).reqIdx = s.reqIdx := by
  unfold pacedState
  split <;> rfl

@[simp] lemma requested_allOrders (s : FetchState) :
    (requested s).allOrders = s.allOrders := rfl

@[simp] lemma waited_allOrders (s : FetchState) (ms : Nat) :
    (waited s ms).allOrders = s.allOrders := rfl

lemma pageLoop_fail_allOrders (oracle : Nat → GraphQLResult) :
    ∀ fuel rc s, (pageLoop oracle fuel rc s).2 = false →
      (pageLoop oracle fuel rc s).1.allOrders = s.allOrders := by
  intro fuel
  induction fuel with
  | zero => intro rc s _; rfl
  | succ n ih =>
    intro rc s h
    simp only [pageLoop] at h ⊢
    cases htf : tryFetch (oracle (pacedState s).reqIdx) with
    | ok v =>
      obtain ⟨edges, pageInfo⟩ := v
      rw [htf] at h
      dsimp only at h
      exact absurd h (by simp)
    | error e =>
      rw [htf] at h
      dsimp only at h ⊢
      split_ifs at h ⊢ with h1 h2
      · rw [ih _ _ h]
        simp
      · rw [ih _ _ h]
        simp
      · simp

/-- Concrete oracles used in counterexamples and witnesses. -/
def invalidOracle : Nat → GraphQLResult := fun _ => .invalidStructure

def throttledOracle : Nat → GraphQLResult := fun _ => .errors "Throttled"

def netFailOracle : Nat → GraphQLResult := fun _ => .fetchThrow "fetch failed"

/-- Behaviour of the retry loop against an upstream that fails every attempt
of the first page with a fixed outcome throwing e: four requests are issued
(the initial attempt plus three retries), each retry waits base * attempt
with the base picked by the transient-message test, and the loop reports
failure. -/
lemma pageLoop_const_error (r : GraphQLResult) (e : LoaderError)
    (h : tryFetch r = .error e) :
    pageLoop (fun _ => r) 4 0 initFetchState =
      ({ allOrders := [], hasNextPage := true, cursor := none, pageCount := 0, reqIdx := 4,
         events := [.request none, .retryWait (retryWaitMs (messageTransient e) 1),
                    .request none, .retryWait (retryWaitMs (messageTransient e) 2),
                    .request none, .retryWait (retryWaitMs (messageTransient e) 3),
                    .request none] }, false) := by
  cases hmt : messageTransient e <;>
    simp [pageLoop, h, hmt, retryWaitMs, pacedState, requested, waited, initFetchState]

/-- Claim C1.  The spec says a first-page fetch failure after exhausted
retries propagates as a hard failure with no summary produced.  The code
instead breaks out of the loop without throwing (part_001 lines 247-258,
"Don't throw - just break and use what we have") and aggregates the empty
order list: with an upstream whose every response fails structure
validation, the first page exhausts its retries, yet the loader still
produces a summary, the aggregation of zero orders. -/
theorem C1_counterexample :
    (pageLoop invalidOracle 4 0 initFetchState).2 = false ∧
    (fetchOrders invalidOracle).allOrders = [] ∧
    loaderAnalytics invalidOracle = processAnalyticsData [] ∧
    (loaderAnalytics invalidOracle).totalOrders = 0 := by
  decide

/-- Claim C1, amended.  A failure that exhausts retries on the very first
page does not fail the pipeline: pagination stops, no exception propagates,
and the loader aggregates the (empty) set of collected pages into a summary,
exactly as failures on later pages degrade to partial success. -/
theorem C1_first_page_failure_degrades (oracle : Nat → GraphQLResult)
    (h : (pageLoop oracle 4 0 initFetchState).2 = false) :
    (fetchOrders oracle).allOrders = [] ∧
    loaderAnalytics oracle = processAnalyticsData [] := by
  have hall := pageLoop_fail_allOrders oracle 4 0 initFetchState h
  have hfo : fetchOrders oracle = (pageLoop oracle 4 0 initFetchState).1 := by
    rw [fetchOrders, show (20 : Nat) = 19 + 1 from rfl, fetchLoop]
    rcases hp : pageLoop oracle 4 0 initFetchState with ⟨s1, b⟩
    rw [hp] at h
    simp only at h
    subst h
    simp [initFetchState]
  refine ⟨by rw [hfo, hall]; rfl, ?_⟩
  rw [loaderAnalytics, hfo, hall]
  rfl

theorem C1_witness :
    (fetchOrders invalidOracle).allOrders = [] ∧
    loaderAnalytics invalidOracle = processAnalyticsData [] :=
  C1_first_page_failure_degrades invalidOracle (by decide)

/-- Claim C2.  The spec says a non-transient failure (such as a malformed
response shape) is never retried and the page is abandoned without further
requests.  In the code the catch handler retries every error class (the
second branch, lines 242-246, catches all remaining errors while retries
are left): against an upstream that always fails structure validation -- a
non-transient error by the message test -- four requests are issued, not
one. -/
theorem C2_counterexample :
    messageTransient LoaderError.invalidStructure = false ∧
    countRequests (pageLoop invalidOracle 4 0 initFetchState).1.events = 4 ∧
    (pageLoop invalidOracle 4 0 initFetchState).2 = false := by
  decide

/-- Claim C2, amended.  Every page-fetch failure, transient or not, is
retried up to 3 additional times; the classes differ only in the backoff
base, not in whether a retry happens.  Against an upstream that always
fails with any fixed error, the retry loop issues exactly 4 requests (1
attempt + 3 retries) and then gives up. -/
theorem C2_all_failures_retried (r : GraphQLResult) (e : LoaderError)
    (h : tryFetch r = .error e) :
    countRequests (pageLoop (fun _ => r) 4 0 initFetchState).1.events = 4 ∧
    (pageLoop (fun _ => r) 4 0 initFetchState).2 = false := by
  rw [pageLoop_const_error r e h]
  simp [countRequests]

theorem C2_witness :
    countRequests
        (pageLoop (fun _ => GraphQLResult.invalidStructure) 4 0 initFetchState).1.events = 4 ∧
    (pageLoop (fun _ => GraphQLResult.invalidStructure) 4 0 initFetchState).2 = false :=
  C2_all_failures_retried GraphQLResult.invalidStructure LoaderError.invalidStructure rfl

/-- Claim C4.  The spec says the throttling backoff base is strictly larger
than the generic network-failure base.  In the code both classes share the
same branch and the same base (line 237: the message test matches both
Throttled and fetch failed; line 239: 4000ms * attempt).  The waits for a
throttled upstream equal the waits for a network-failing upstream, so the
throttling base is not strictly larger. -/
theorem C4_counterexample :
    messageTransient (LoaderError.thrown "fetch failed") = true ∧
    messageTransient LoaderError.throttled = true ∧
    retryWaits (pageLoop netFailOracle 4 0 initFetchState).1.events = [4000, 8000, 12000] ∧
    retryWaits (pageLoop throttledOracle 4 0 initFetchState).1.events = [4000, 8000, 12000] := by
  decide

/-- Claim C4, amended.  Retry waits are linear in the attempt number, wait =
base * attempt for attempts 1..3, where the base is 4000ms for failures whose
message matches the transient classes -- throttling and network failure
alike -- and 3000ms for all other failures; the throttling base thus equals
the network base, and both exceed the base of the remaining failures. -/
theorem C4_linear_backoff (r : GraphQLResult) (e : LoaderError)
    (h : tryFetch r = .error e) :
    retryWaits (pageLoop (fun _ => r) 4 0 initFetchState).1.events =
      [retryWaitMs (messageTransient e) 1, retryWaitMs (messageTransient e) 2,
       retryWaitMs (messageTransient e) 3] ∧
    retryWaitMs (messageTransient LoaderError.throttled) 1 = 4000 ∧
    retryWaitMs (messageTransient (LoaderError.thrown "fetch failed")) 1 = 4000 ∧
    retryWaitMs (messageTransient LoaderError.invalidStructure) 1 = 3000 := by
  rw [pageLoop_const_error r e h]
  exact ⟨by simp [retryWaits], by decide, by decide, by decide⟩

theorem C4_witness :
    retryWaits
        (pageLoop (fun _ => GraphQLResult.invalidStructure) 4 0 initFetchState).1.events =
      [retryWaitMs (messageTransient LoaderError.invalidStructure) 1,
       retryWaitMs (messageTransient LoaderError.invalidStructure) 2,
       retryWaitMs (messageTransient LoaderError.invalidStructure) 3] ∧
    retryWaitMs (messageTransient LoaderError.throttled) 1 = 4000 ∧
    retryWaitMs (messageTransient (LoaderError.thrown "fetch failed")) 1 = 4000 ∧
    retryWaitMs (messageTransient LoaderError.invalidStructure) 1 = 3000 :=
  C4_linear_backoff GraphQLResult.invalidStructure LoaderError.invalidStructure rfl

/-! ## Concrete sample data for counterexamples and witnesses -/

/-- An order whose processed date lies outside the target year 2025. -/
def order2024 : OrderNode :=
  { id := "o2024", processedAt := some ⟨2024, 3⟩, amount := 100
    displayFulfillmentStatus := "FULFILLED", displayFinancialStatus := "PAID"
    customer := none, lineItems := [], shippingAddress := none }

def widgetItem : LineItemNode :=
  { title := "Widget", quantity := 2, product := some ⟨"p1", "Widget"⟩, variantPrice := 50 }

def orderA : OrderNode :=
  { id := "A", processedAt := some ⟨2025, 3⟩, amount := 100
    displayFulfillmentStatus := "FULFILLED", displayFinancialStatus := "PAID"
    customer := some "c1", lineItems := [widgetItem]
    shippingAddress := some ⟨some "Springfield", none, none⟩ }

def orderB : OrderNode :=
  { id := "B", processedAt := some ⟨2025, 3⟩, amount := 50
    displayFulfillmentStatus := "UNFULFILLED", displayFinancialStatus := "PENDING"
    customer := some "c1", lineItems := []
    shippingAddress := some ⟨some "Springfield", none, none⟩ }

def orderNoCustomer : OrderNode :=
  { id := "N", processedAt := none, amount := 10
    displayFulfillmentStatus := "UNFULFILLED", displayFinancialStatus := "PENDING"
    customer := none, lineItems := [], shippingAddress := none }

/-- Claim C3.  The spec says an order processed outside the target year is
excluded from the monthly buckets entirely.  In the code (lines 332-335) the
Map.get-or-default followed by Map.set creates a fresh bucket under the
order's own month label when it is not one of the twelve pre-filled 2025
keys: a single order processed in March 2024 yields a 13-entry monthly
collection with a Mar 2024 bucket counting that order. -/
theorem C3_counterexample :
    (processAnalyticsData [order2024]).monthlyData.length = 13 ∧
    (processAnalyticsData [order2024]).monthlyData.map Prod.fst =
      months2025 ++ ["Mar 2024"] ∧
    (alGet (processAnalyticsData [order2024]).monthlyData "Mar 2024").map
      MonthAgg.orders = some 1 := by
  decide

/-- Claim C3, amended.  An order whose processed timestamp falls outside the
target year is not clipped into any existing 2025 month, but it is not
dropped either: it is recorded under a fresh month entry keyed by its own
month label, appended after the twelve zero-filled 2025 buckets, which
remain untouched by it. -/
theorem C3_out_of_year_appended (o : OrderNode) (d : DateYM)
    (h1 : o.processedAt = some d) (h2 : monthLabel d ∉ months2025) :
    (processAnalyticsData [o]).monthlyData =
      months2025.map (fun m => (m, ({ orders := 0, revenue := 0 } : MonthAgg))) ++
        [(monthLabel d, { orders := 1, revenue := o.amount })] := by
  have hkeys : initAggState.monthlyStats.map Prod.fst = months2025 := by
    decide
  have hget : alGet initAggState.monthlyStats (monthLabel d) = none :=
    alGet_eq_none_of_not_mem _ _ (by rw [hkeys]; exact h2)
  have hfold : ([o].foldl processOrder initAggState) = processOrder initAggState o := rfl
  rw [pad_monthlyData, hfold, processOrder_monthlyStats, addMonthly_monthlyStats, h1]
  dsimp only
  rw [hget, alSet_of_not_mem _ _ _ (by rw [hkeys]; exact h2)]
  simp [initAggState]

theorem C3_witness :
    (processAnalyticsData [order2024]).monthlyData =
      months2025.map (fun m => (m, ({ orders := 0, revenue := 0 } : MonthAgg))) ++
        [(monthLabel ⟨2024, 3⟩, { orders := 1, revenue := order2024.amount })] :=
  C3_out_of_year_appended order2024 ⟨2024, 3⟩ rfl (by decide)

/-- Claim C5.  For every input order sequence the monthly collection starts
from the twelve zero-filled months of 2025 and Map.set never removes a key,
so the first twelve entries of the output are exactly the twelve 2025
months, and a 2025 month that received no orders is still present with zero
orders and zero revenue. -/
theorem C5_monthly_zero_fill (orders : List OrderNode) :
    ((processAnalyticsData orders).monthlyData.map Prod.fst).take 12 = months2025 ∧
    initAggState.monthlyStats =
      months2025.map (fun m => (m, ({ orders := 0, revenue := 0 } : MonthAgg))) ∧
    (∀ m, m ∈ months2025 → orders.countP (inMonth m) = 0 →
      alGet (processAnalyticsData orders).monthlyData m =
        some { orders := 0, revenue := 0 }) := by
  refine ⟨?_, rfl, ?_⟩
  · obtain ⟨ex, hex⟩ :=
      foldl_monthly_keys orders initAggState ⟨[], by decide⟩
    rw [pad_monthlyData, hex, show (12 : Nat) = months2025.length from rfl,
      List.take_left]
  · intro m hm h0
    rw [pad_monthlyData, foldl_monthly_lookup]
    have hget : alGet initAggState.monthlyStats m = some ⟨0, 0⟩ := by
      rw [show initAggState.monthlyStats =
        months2025.map (fun m => (m, ({ orders := 0, revenue := 0 } : MonthAgg))) from rfl]
      rw [alGet_const_map]
      simp [hm]
    rw [hget]
    have hfil : orders.filter (inMonth m) = [] :=
      List.filter_eq_nil_iff.mpr (List.countP_eq_zero.mp h0)
    simp [h0, hfil, sumAmounts]

theorem C5_witness :
    ((processAnalyticsData []).monthlyData.map Prod.fst).take 12 = months2025 ∧
    alGet (processAnalyticsData []).monthlyData "Mar 2025" =
      some { orders := 0, revenue := 0 } :=
  ⟨(C5_monthly_zero_fill []).1,
   (C5_monthly_zero_fill []).2.2 "Mar 2025" (by decide) (by decide)⟩

/-- Claim C6.  For the empty order sequence the guarded average (line 406)
returns exactly 0, and the totals are 0: the division branch is taken only
when the order count is positive. -/
theorem C6_empty_guard :
    (processAnalyticsData []).averageOrderValue = 0 ∧
    (processAnalyticsData []).totalOrders = 0 ∧
    (processAnalyticsData []).totalRevenue = 0 := by
  decide

/-- Claim C7.  Every customer present in the per-customer map carries its
final order count (at least 1), the segments are exactly the counts of
customers with final count 1 (new), 2-4 (returning) and at least 5 (vip),
the three buckets partition the customers, and an order without a customer
id leaves the per-customer map untouched. -/
theorem C7_segment_classification (orders : List OrderNode) :
    ((processAnalyticsData orders).customerSegments =
      ⟨((orders.foldl processOrder initAggState).customerOrders).countP
          (fun kv => kv.2 == 1),
        ((orders.foldl processOrder initAggState).customerOrders).countP
          (fun kv => decide (2 ≤ kv.2 ∧ kv.2 ≤ 4)),
        ((orders.foldl processOrder initAggState).customerOrders).countP
          (fun kv => decide (5 ≤ kv.2))⟩) ∧
    ((processAnalyticsData orders).customerSegments.new +
      (processAnalyticsData orders).customerSegments.returning +
      (processAnalyticsData orders).customerSegments.vip =
        ((orders.foldl processOrder initAggState).customerOrders).length) ∧
    (∀ cid v, (cid, v) ∈ (orders.foldl processOrder initAggState).customerOrders →
      v = customerCount orders cid ∧ 1 ≤ v) ∧
    (∀ s o, o.customer = none → (processOrder s o).customerOrders = s.customerOrders) := by
  have hval : ∀ kv, kv ∈ (orders.foldl processOrder initAggState).customerOrders →
      1 ≤ kv.2 := by
    intro kv hkv
    exact (customer_entry_value orders kv.1 kv.2 (by simpa using hkv)).2
  have hcongr :
      ((orders.foldl processOrder initAggState).customerOrders).countP
          (fun kv => decide (kv.2 ≠ 1 ∧ kv.2 < 5)) =
        ((orders.foldl processOrder initAggState).customerOrders).countP
          (fun kv => decide (2 ≤ kv.2 ∧ kv.2 ≤ 4)) := by
    apply List.countP_congr
    intro kv hkv
    have h1 := hval kv hkv
    have : (kv.2 ≠ 1 ∧ kv.2 < 5) ↔ (2 ≤ kv.2 ∧ kv.2 ≤ 4) := by omega
    simp [this]
  refine ⟨?_, ?_, ?_, ?_⟩
  · rw [pad_customerSegments, segmentsOf_eq, hcongr]
  · rw [pad_customerSegments, segmentsOf_eq]
    exact countP_segments_len _
  · intro cid v hmem
    exact customer_entry_value orders cid v hmem
  · intro s o h
    rw [processOrder_customerOrders, addCustomer_customerOrders, h]

theorem C7_witness :
    (2 = customerCount [orderA, orderB] "c1" ∧ 1 ≤ 2) ∧
    (processOrder initAggState orderNoCustomer).customerOrders =
      initAggState.customerOrders :=
  ⟨(C7_segment_classification [orderA, orderB]).2.2.1 "c1" 2 (by decide),
   (C7_segment_classification [orderA, orderB]).2.2.2 initAggState orderNoCustomer rfl⟩

/-! ## Permutation invariance -/

lemma countP_customer_entries (l : List OrderNode) (P : Nat → Bool) :
    ((l.foldl processOrder initAggState).customerOrders).countP (fun kv => P kv.2) =
      (((l.foldl processOrder initAggState).customerOrders).map Prod.fst).countP
        (fun cid => P (customerCount l cid)) := by
  rw [List.countP_map]
  apply List.countP_congr
  intro kv hkv
  have hv := (customer_entry_value l kv.1 kv.2 (by simpa using hkv)).1
  simp only [Function.comp_apply]
  rw [hv]

lemma customer_keys_perm (l1 l2 : List OrderNode) (h : l1.Perm l2) :
    (((l1.foldl processOrder initAggState).customerOrders).map Prod.fst).Perm
      (((l2.foldl processOrder initAggState).customerOrders).map Prod.fst) := by
  refine (List.perm_ext_iff_of_nodup ?_ ?_).mpr ?_
  · exact foldl_customer_keys_nodup l1 _ (by simp [initAggState])
  · exact foldl_customer_keys_nodup l2 _ (by simp [initAggState])
  · intro cid
    rw [customer_key_iff, customer_key_iff, customerCount, customerCount,
      h.countP_eq]

lemma segmentsOf_perm_invariant (l1 l2 : List OrderNode) (h : l1.Perm l2) :
    segmentsOf (l1.foldl processOrder initAggState).customerOrders =
      segmentsOf (l2.foldl processOrder initAggState).customerOrders := by
  have hcc : ∀ cid, customerCount l1 cid = customerCount l2 cid :=
    fun cid => h.countP_eq _
  have hkeys := customer_keys_perm l1 l2 h
  have gen : ∀ P : Nat → Bool,
      ((l1.foldl processOrder initAggState).customerOrders).countP (fun kv => P kv.2) =
        ((l2.foldl processOrder initAggState).customerOrders).countP (fun kv => P kv.2) := by
    intro P
    rw [countP_customer_entries, countP_customer_entries, hkeys.countP_eq]
    apply List.countP_congr
    intro cid _
    rw [hcc cid]
  rw [segmentsOf_eq, segmentsOf_eq]
  simp only [SegmentCounts.mk.injEq]
  refine ⟨?_, ?_, ?_⟩
  · simpa using gen (fun v => v == 1)
  · simpa using gen (fun v => decide (v ≠ 1 ∧ v < 5))
  · simpa using gen (fun v => decide (5 ≤ v))

/-- Claim C8.  For any permutation of the order sequence the totals, the
status counts, every monthly bucket, and the customer segment counts are
identical; only the two top-10 orderings may depend on encounter order. -/
theorem C8_permutation_invariance (l1 l2 : List OrderNode) (h : l1.Perm l2) :
    (processAnalyticsData l1).totalRevenue = (processAnalyticsData l2).totalRevenue ∧
    (processAnalyticsData l1).totalOrders = (processAnalyticsData l2).totalOrders ∧
    (processAnalyticsData l1).fulfilledOrders = (processAnalyticsData l2).fulfilledOrders ∧
    (processAnalyticsData l1).paidOrders = (processAnalyticsData l2).paidOrders ∧
    (∀ m, alGet (processAnalyticsData l1).monthlyData m =
      alGet (processAnalyticsData l2).monthlyData m) ∧
    (processAnalyticsData l1).customerSegments = (processAnalyticsData l2).customerSegments := by
  have hsum : sumAmounts l1 = sumAmounts l2 := (h.map OrderNode.amount).sum_eq
  refine ⟨?_, ?_, ?_, ?_, ?_, ?_⟩
  · rw [pad_totalRevenue, pad_totalRevenue, foldl_totalRevenue, foldl_totalRevenue, hsum]
  · rw [pad_totalOrders, pad_totalOrders, h.length_eq]
  · rw [pad_fulfilledOrders, pad_fulfilledOrders, foldl_fulfilledCount,
      foldl_fulfilledCount, h.countP_eq]
  · rw [pad_paidOrders, pad_paidOrders, foldl_paidCount, foldl_paidCount, h.countP_eq]
  · intro m
    have hfs : sumAmounts (l1.filter (inMonth m)) = sumAmounts (l2.filter (inMonth m)) :=
      ((h.filter (inMonth m)).map OrderNode.amount).sum_eq
    rw [pad_monthlyData, pad_monthlyData, foldl_monthly_lookup, foldl_monthly_lookup,
      h.countP_eq (inMonth m), hfs]
  · rw [pad_customerSegments, pad_customerSegments]
    exact segmentsOf_perm_invariant l1 l2 h

theorem C8_witness :
    (processAnalyticsData [orderA, orderB]).totalRevenue =
      (processAnalyticsData [orderB, orderA]).totalRevenue ∧
    alGet (processAnalyticsData [orderA, orderB]).monthlyData "Mar 2025" =
      alGet (processAnalyticsData [orderB, orderA]).monthlyData "Mar 2025" ∧
    (processAnalyticsData [orderA, orderB]).customerSegments =
      (processAnalyticsData [orderB, orderA]).customerSegments := by
  have h := C8_permutation_invariance [orderA, orderB] [orderB, orderA]
    (List.Perm.swap orderB orderA [])
  exact ⟨h.1, h.2.2.2.2.1 "Mar 2025", h.2.2.2.2.2⟩

/-- Claim C9.  The product list is the stable descending sort by cumulative
quantity truncated to 10 entries, the location list likewise by order
count: the outputs are sorted, hold at most 10 entries, and among entries
with the same sort key the output preserves the aggregate map's insertion
order, which is the first-encounter order of the input (the filter of the
output at any key value is a prefix of the filter of the aggregate list). -/
theorem C9_top10_sorted_stable (orders : List OrderNode) :
    ((processAnalyticsData orders).productData.length ≤ 10) ∧
    (processAnalyticsData orders).productData.Pairwise
      (fun a b => b.quantity ≤ a.quantity) ∧
    (∀ q, ∃ rest,
      (((orders.foldl processOrder initAggState).productStats.map Prod.snd).filter
          (fun p => p.quantity == q)) =
        ((processAnalyticsData orders).productData.filter
          (fun p => p.quantity == q)) ++ rest) ∧
    ((processAnalyticsData orders).locationData.length ≤ 10) ∧
    (processAnalyticsData orders).locationData.Pairwise
      (fun a b => b.2.orders ≤ a.2.orders) ∧
    (∀ q, ∃ rest,
      (((orders.foldl processOrder initAggState).locationStats).filter
          (fun p => p.2.orders == q)) =
        ((processAnalyticsData orders).locationData.filter
          (fun p => p.2.orders == q)) ++ rest) := by
  refine ⟨?_, ?_, ?_, ?_, ?_, ?_⟩
  · rw [pad_productData]
    exact List.length_take_le _ _
  · rw [pad_productData]
    exact List.Pairwise.sublist (List.take_sublist _ _) (sortByDesc_pairwise _ _)
  · intro q
    obtain ⟨rest, hrest⟩ := filter_take_exists (fun p => ProdAgg.quantity p == q)
      (sortByDesc (fun p : ProdAgg => p.quantity)
        ((orders.foldl processOrder initAggState).productStats.map Prod.snd)) 10
    refine ⟨rest, ?_⟩
    rw [pad_productData]
    exact (sortByDesc_filter (fun p : ProdAgg => p.quantity) _ q).symm.trans hrest
  · rw [pad_locationData]
    exact List.length_take_le _ _
  · rw [pad_locationData]
    exact List.Pairwise.sublist (List.take_sublist _ _) (sortByDesc_pairwise _ _)
  · intro q
    obtain ⟨rest, hrest⟩ := filter_take_exists (fun p : String × LocAgg => p.2.orders == q)
      (sortByDesc (fun p : String × LocAgg => p.2.orders)
        ((orders.foldl processOrder initAggState).locationStats)) 10
    refine ⟨rest, ?_⟩
    rw [pad_locationData]
    exact (sortByDesc_filter (fun p : String × LocAgg => p.2.orders) _ q).symm.trans hrest

/-! ## Exclusion of line items with an absent product record -/

/-- Drop the line items whose product record is absent (the ones the
aggregation skips via the if (product) guard at line 353). -/
def stripNoProductItems (o : OrderNode) : OrderNode :=
  { o with lineItems := o.lineItems.filter (fun it => it.product.isSome) }

lemma foldl_pli_filter (items : List LineItemNode) (s : AggState) :
    (items.filter (fun it => it.product.isSome)).foldl processLineItem s =
      items.foldl processLineItem s := by
  induction items generalizing s with
  | nil => rfl
  | cons it items ih =>
    cases hp : it.product with
    | none =>
      have hid : processLineItem s it = s := by simp [processLineItem, hp]
      simp [List.filter_cons, hp, ih, hid]
    | some p =>
      simp [List.filter_cons, hp, ih]

lemma addLineItems_strip (s : AggState) (o : OrderNode) :
    addLineItems s (stripNoProductItems o) = addLineItems s o :=
  foldl_pli_filter o.lineItems s

lemma processOrder_strip (s : AggState) (o : OrderNode) :
    processOrder s (stripNoProductItems o) = processOrder s o := by
  have h1 : addRevenue s (stripNoProductItems o) = addRevenue s o := rfl
  have h2 : ∀ t, addMonthly t (stripNoProductItems o) = addMonthly t o := fun t => rfl
  have h3 : ∀ t, addStatusCounts t (stripNoProductItems o) = addStatusCounts t o :=
    fun t => rfl
  have h4 : ∀ t, addCustomer t (stripNoProductItems o) = addCustomer t o := fun t => rfl
  have h6 : ∀ t, addLocation t (stripNoProductItems o) = addLocation t o := fun t => rfl
  rw [processOrder, processOrder, h1, h2, h3, h4, addLineItems_strip, h6]

def ghostItem : LineItemNode :=
  { title := "Ghost", quantity := 3, product := none, variantPrice := 7 }

def orderWithGhost : OrderNode :=
  { id := "G", processedAt := some ⟨2025, 5⟩, amount := 20
    displayFulfillmentStatus := "FULFILLED", displayFinancialStatus := "PAID"
    customer := some "c9", lineItems := [ghostItem, widgetItem], shippingAddress := none }

/-- Claim C10.  A line item whose product record is absent is skipped by the
product-analysis guard and contributes to nothing: deleting every such line
item from every order leaves the entire summary unchanged, while the
containing orders still count (they stay in the list); and processing one
such line item is the identity on the aggregation state. -/
theorem C10_missing_product_excluded (orders : List OrderNode) :
    processAnalyticsData (orders.map stripNoProductItems) = processAnalyticsData orders ∧
    (∀ s item, item.product = none → processLineItem s item = s) := by
  constructor
  · have hfold : (orders.map stripNoProductItems).foldl processOrder initAggState =
        orders.foldl processOrder initAggState := by
      rw [List.foldl_map]
      exact List.foldl_ext _ _ _ (fun a b _ => processOrder_strip a b)
    simp only [processAnalyticsData, hfold, List.length_map]
  · intro s item h
    simp [processLineItem, h]

theorem C10_witness :
    processAnalyticsData ([orderWithGhost].map stripNoProductItems) =
      processAnalyticsData [orderWithGhost] ∧
    processLineItem initAggState ghostItem = initAggState :=
  ⟨(C10_missing_product_excluded [orderWithGhost]).1,
   (C10_missing_product_excluded [orderWithGhost]).2 initAggState ghostItem rfl⟩

end ShopifyAnalytics
